import Mathlib

/-!
Shallow embedding of the openowl content-extraction core
(`src/content/extractors/base.js`, `sites/*.js`, `registry.js`, and the
content script `src/content/index.js`), with theorems checking the
natural-language specification against it.

Strings are modelled as Lean `String` (a list of characters); JS string
indices/lengths are modelled as character counts.  DOM reads are modelled
as oracle fields of a `Doc` value (the point-in-time page state); a read
that may throw in the host environment is given type `Except String _`.
-/

set_option autoImplicit false
set_option maxRecDepth 10000

namespace OpenOwl

/-- Characters matched by the JS regex `\s` (and trimmed by
`String.prototype.trim`): ASCII whitespace, NBSP, the Unicode space
separators, line/paragraph separators, and the BOM. -/
def jsWsCodes : List UInt32 :=
  [9, 10, 11, 12, 13, 32, 160, 0x1680,
   0x2000, 0x2001, 0x2002, 0x2003, 0x2004, 0x2005, 0x2006, 0x2007,
   0x2008, 0x2009, 0x200a, 0x2028, 0x2029, 0x202f, 0x205f, 0x3000, 0xfeff]

/-- Whether a character is JS whitespace (`\s`). -/
def isJsWs (c : Char) : Bool :=
  jsWsCodes.contains c.val

/-- One left-to-right pass of the replacement `text.replace(/<[^>]*>/g, '')`
from `cleanText` (base.js line 109).  The second argument is `some buf`
(characters seen since an as-yet-unclosed `<`, in reverse) while scanning a
potential tag, `none` otherwise.  A `<` whose tag never closes is kept
verbatim, exactly as the regex leaves it. -/
def stripGo : List Char → Option (List Char) → List Char
  | [], none => []
  | [], some buf => buf.reverse
  | c :: cs, none =>
    if c = '<' then stripGo cs (some [c]) else c :: stripGo cs none
  | c :: cs, some buf =>
    if c = '>' then stripGo cs none else stripGo cs (some (c :: buf))

/-- `text.replace(/<[^>]*>/g, '')` — strip markup tags (base.js line 109). -/
def stripTags (l : List Char) : List Char :=
  stripGo l none

/-- One pass of `text.replace(/\s+/g, ' ')`: the boolean state records
whether we are inside a whitespace run whose single `' '` was already
emitted. -/
def collapseGo : Bool → List Char → List Char
  | _, [] => []
  | inRun, c :: cs =>
    if isJsWs c then
      if inRun then collapseGo true cs else ' ' :: collapseGo true cs
    else c :: collapseGo false cs

/-- `text.replace(/\s+/g, ' ')` — collapse whitespace runs (base.js line 112). -/
def collapseWs (l : List Char) : List Char :=
  collapseGo false l

/-- Remove trailing JS whitespace (the right half of `String.prototype.trim`). -/
def trimRight : List Char → List Char
  | [] => []
  | c :: cs =>
    match trimRight cs with
    | [] => if isJsWs c then [] else [c]
    | d :: ds => c :: d :: ds

/-- `String.prototype.trim` (base.js line 112, applied after the collapse). -/
def trimList (l : List Char) : List Char :=
  trimRight (l.dropWhile isJsWs)

/-- Whether a character list contains a `>`. -/
def hasGt : List Char → Bool
  | [] => false
  | c :: cs => c = '>' || hasGt cs

/-- Whether a character list contains a `<` that is followed (not
necessarily adjacently) by a `>` — i.e. whether the tag regex
`/<[^>]*>/` would still match somewhere. -/
def hasTag : List Char → Bool
  | [] => false
  | c :: cs => if c = '<' then hasGt cs || hasTag cs else hasTag cs

/-- No two adjacent characters are both JS whitespace. -/
def noAdjWs : List Char → Bool
  | [] => true
  | [_] => true
  | a :: b :: rest => !(isJsWs a && isJsWs b) && noAdjWs (b :: rest)

/-- The first character, if any, is not JS whitespace. -/
def headNonWs : List Char → Bool
  | [] => true
  | c :: _ => !isJsWs c

/-- The last character, if any, is not JS whitespace. -/
def lastNonWs : List Char → Bool
  | [] => true
  | [c] => !isJsWs c
  | _ :: c :: cs => lastNonWs (c :: cs)

/-- Every JS-whitespace character in the list is a plain space. -/
def allWsSpace (l : List Char) : Bool :=
  l.all fun c => !isJsWs c || c = ' '

/-- `BaseSiteExtractor.cleanText` (base.js lines 105-115): falsy guard,
tag strip, whitespace collapse, trim. -/
def cleanText (s : String) : String :=
  if s.data.isEmpty then ""
  else String.mk (trimList (collapseWs (stripTags s.data)))

/-- A JS value passed where a string is expected: `null`, `undefined`, or an
actual string.  Used to model the `if (!text) return ''` guard. -/
inductive JsStrArg where
  | null
  | undefined
  | str (s : String)
deriving DecidableEq

/-- `cleanText` as called with a possibly-null/undefined argument: the
`!text` guard returns `''` for `null`, `undefined` and `''`. -/
def cleanTextArg : JsStrArg → String
  | .null => ""
  | .undefined => ""
  | .str s => cleanText s

/-- JS `s.substring(0, n)` (character count model). -/
def jsSubstring (s : String) (n : Nat) : String :=
  String.mk (s.data.take n)

/-- JS `a || b` on strings: `b` when `a` is empty (falsy), else `a`. -/
def jsOr (a b : String) : String :=
  if a.data.isEmpty then b else a

/-- JS `s.trim()` on a whole string. -/
def jsTrim (s : String) : String :=
  String.mk (trimList s.data)

/-- Whether `p` is a leading run of `l`. -/
def startsL : List Char → List Char → Bool
  | [], _ => true
  | _ :: _, [] => false
  | p :: ps, c :: cs => p == c && startsL ps cs

/-- JS `s.startsWith(p)`. -/
def jsStartsWith (s p : String) : Bool :=
  startsL p.data s.data

/-- JS `s.endsWith(p)`. -/
def jsEndsWith (s p : String) : Bool :=
  startsL p.data.reverse s.data.reverse

/-- Whether `pat` occurs as a contiguous run inside `l`. -/
def containsSubL : List Char → List Char → Bool
  | pat, [] => pat.isEmpty
  | pat, c :: cs => startsL pat (c :: cs) || containsSubL pat cs

/-- JS `s.includes(pat)`. -/
def containsSub (s pat : String) : Bool :=
  containsSubL pat.data s.data

/-- JS `Array.prototype.join(sep)`. -/
def joinSep (sep : String) : List String → String
  | [] => ""
  | [s] => s
  | s :: rest => s ++ sep ++ joinSep sep rest

/-- Number a list of lines `1. …`, `2. …` starting at the given index. -/
def numberLines : Nat → List String → List String
  | _, [] => []
  | i, s :: rest => (toString i ++ ". " ++ s) :: numberLines (i + 1) rest

/-- Split a character list at every occurrence of `sep` (JS `s.split(sep)`
for a one-character separator; always returns at least one piece). -/
def splitOnChar (sep : Char) : List Char → List (List Char)
  | [] => [[]]
  | c :: cs =>
    if c = sep then [] :: splitOnChar sep cs
    else
      match splitOnChar sep cs with
      | [] => [[c]]
      | p :: ps => (c :: p) :: ps

/-- JS regex test `/\d+:\d+/` — some digit, a colon, and a digit occur
consecutively (calendar.js line 149). -/
def hasTime : List Char → Bool
  | a :: b :: c :: rest => (a.isDigit && b = ':' && c.isDigit) || hasTime (b :: c :: rest)
  | _ => false

/-- JS regex test `/^\d+:/` — the string starts with one or more digits
followed by a colon (calendar.js line 134). -/
def startsNumColon (s : String) : Bool :=
  match s.data.dropWhile Char.isDigit with
  | ':' :: _ => !(s.data.takeWhile Char.isDigit).isEmpty
  | _ => false

/-- A JS metadata value: a string or a number (the only shapes the
extractors store). -/
inductive JsVal where
  | str (s : String)
  | num (n : Nat)
deriving DecidableEq

/-- The `ExtractedContent` record (base.js typedef, lines 156-166). -/
structure ExtractedContent where
  url : String
  title : String
  domain : String
  content : String
  type : String
  extractionMethod : String
  metadata : List (String × JsVal)
  timestamp : Nat
deriving DecidableEq

/-- A visible Linear issue card and its three sub-queried fields
(`[data-key="identifier"]`, `[data-key="title"]`, `[data-key="state"]`);
`none` models a missing element (`?.textContent` yields `undefined`). -/
structure LinearCard where
  identifier : Option String
  title : Option String
  state : Option String

/-- Point-in-time state of the page visible to the extractors.  DOM reads
are oracle functions of this state; reads the source wraps in a
`try`/`catch` (or that may throw a host exception, such as
`location.pathname` access) have type `Except String _`, the error being
the thrown `error.message`. -/
structure Doc where
  /-- `window.location.href`. -/
  href : String
  /-- `window.location.hostname`. -/
  hostname : String
  /-- `window.location.pathname`; access may throw a host exception. -/
  pathname : Except String String
  /-- `document.title`. -/
  title : String
  /-- `Date.now()` at extraction time. -/
  now : Nat
  /-- `document.querySelector(sel)` followed by `innerText || textContent || ''`:
  `none` when no element matches; may throw. -/
  queryText : String → Except String (Option String)
  /-- `document.querySelectorAll(sel)` with `innerText || textContent || ''`
  per element, in document order; may throw. -/
  queryTexts : String → Except String (List String)
  /-- The raw text of `document.body.cloneNode(true)` after removing the
  noise-selector elements (generic.js `tryBodyMinusNoise` DOM part); the
  clone/remove/read sequence may throw. -/
  bodyNoiseFreeText : Except String String
  /-- The visible Linear issue cards `[data-entity-type="issue"]` with their
  sub-queried fields (linear.js `extractBoardView`); the query may throw. -/
  linearCards : Except String (List LinearCard)
  /-- Whether `document.body` is present. -/
  hasBody : Bool

/-- `BaseSiteExtractor.buildResult` (base.js lines 124-135).  Note the
source hardcodes `extractionMethod: 'site_specific'` for every caller. -/
def buildResult (d : Doc) (type content : String)
    (metadata : List (String × JsVal)) : ExtractedContent :=
  { url := d.href
    title := jsOr d.title "Untitled"
    domain := d.hostname
    content := jsSubstring (cleanText content) 2000
    type := type
    extractionMethod := "site_specific"
    metadata := metadata
    timestamp := d.now }

/-- `BaseSiteExtractor.buildFallbackResult` (base.js lines 142-153).  The
`reason` is embedded verbatim in `content` (no `cleanText`, no cap). -/
def buildFallbackResult (d : Doc) (reason : String) : ExtractedContent :=
  { url := d.href
    title := jsOr d.title "Untitled"
    domain := d.hostname
    content := "Could not extract content: " ++ reason
    type := "fallback"
    extractionMethod := "fallback"
    metadata := [("reason", .str reason)]
    timestamp := d.now }

/-- `BaseSiteExtractor.getText` (base.js lines 70-80): first match's text,
cleaned, truncated to `maxLength` when one is given; any DOM failure or a
missing element yields `''`. -/
def getText (d : Doc) (selector : String) (maxLength : Option Nat := none) : String :=
  match d.queryText selector with
  | .error _ => ""
  | .ok none => ""
  | .ok (some raw) =>
    match maxLength with
    | none => cleanText raw
    | some m => jsSubstring (cleanText raw) m

/-- `BaseSiteExtractor.getMultiple` (base.js lines 88-98): all matches'
texts, cleaned, truncated, empties filtered out; DOM failure yields `[]`. -/
def getMultiple (d : Doc) (selector : String) (maxLength : Option Nat := none) : List String :=
  match d.queryTexts selector with
  | .error _ => []
  | .ok raws =>
    (raws.map fun raw =>
      match maxLength with
      | none => cleanText raw
      | some m => jsSubstring (cleanText raw) m).filter fun t => 0 < t.data.length

/-- Scan forward to the first `"://"` and return what follows, if any. -/
def afterSchemeSep : List Char → Option (List Char)
  | ':' :: '/' :: '/' :: rest => some rest
  | [] => none
  | _ :: cs => afterSchemeSep cs

/-- Modelled from the spec: the hostname component produced by the platform
URL parser (`new URL(url).hostname`, base.js line 51), which is
host-environment code not present in the repository.  Simplified to
`scheme://[host][:port][/?#…]` forms: the scheme must start with a letter,
the authority runs to the first `/`, `?` or `#`, the port (after `:`) is
dropped, the host is lowercased, and an absent `"://"` or empty host is a
parse failure (`new URL` throws). -/
def parseHost (u : String) : Option String :=
  match u.data with
  | [] => none
  | c :: cs =>
    if c.isAlpha then
      match afterSchemeSep (c :: cs) with
      | none => none
      | some rest =>
        let auth := rest.takeWhile fun x => !(x = '/' || x = '?' || x = '#')
        let host := (auth.takeWhile fun x => !(x = ':')).map Char.toLower
        if host.isEmpty then none else some (String.mk host)
    else none

/-- `BaseSiteExtractor.canHandle` (base.js lines 49-58): parse the URL; the
hostname must equal a domain or end with `"." + domain`; a parse failure is
caught and yields `false`. -/
def canHandleDefault (domains : List String) (url : String) : Bool :=
  match parseHost url with
  | none => false
  | some host => domains.any fun domain => host == domain || jsEndsWith host ("." ++ domain)

/-- The semantic content selectors of the generic extractor, in source
order (generic.js lines 61-73). -/
def genericSelectors : List String :=
  ["article", "main", "[role=\"main\"]", ".post-content", ".article-content",
   ".markdown-body", ".content", "#content", ".post", ".entry-content", "section"]

/-- The selector loop of `GenericExtractor.trySemanticSelectors`
(generic.js lines 75-82): first selector whose cleaned text has at least
100 characters wins; otherwise `''`. -/
def semGo (d : Doc) : List String → String
  | [] => ""
  | sel :: rest =>
    let text := getText d sel
    if 100 ≤ text.data.length then text else semGo d rest

/-- `GenericExtractor.trySemanticSelectors` (generic.js lines 60-83). -/
def trySemanticSelectors (d : Doc) : String :=
  semGo d genericSelectors

/-- `GenericExtractor.tryBodyMinusNoise` (generic.js lines 88-130): clean
the noise-free body-clone text; the local `try`/`catch` converts any DOM
failure into `''`. -/
def tryBodyMinusNoise (d : Doc) : String :=
  match d.bodyNoiseFreeText with
  | .error _ => ""
  | .ok raw => cleanText raw

/-- The `try` body of `GenericExtractor.extract` (generic.js lines 33-49);
in this model none of its reads can throw (they are all individually
guarded in the source), so it always returns `.ok`. -/
def genericBody (d : Doc) : Except String ExtractedContent := do
  let layer1 := trySemanticSelectors d
  if 100 ≤ layer1.data.length then
    return buildResult d "generic_semantic" layer1 [("layer", .num 1)]
  let layer2 := tryBodyMinusNoise d
  if 50 ≤ layer2.data.length then
    return buildResult d "generic_body" layer2 [("layer", .num 2)]
  return buildResult d "generic_fallback" (jsOr d.title "Untitled page") [("layer", .num 3)]

/-- `GitHubExtractor.extractPR` (github.js lines 45-79). -/
def githubPR (d : Doc) : ExtractedContent :=
  let title := jsOr (getText d ".gh-header-title" (some 500)) (getText d "bdi.js-issue-title" (some 500))
  let description := getText d ".comment-body" (some 300)
  let status := jsOr (getText d ".State" (some 50))
    (getText d "[data-hovercard-type=\"pull_request\"] .State" (some 50))
  let filesChanged := joinSep ", " (getMultiple d ".file-info" (some 50))
  let reviewers := joinSep ", " ((getMultiple d "[data-hovercard-type=\"user\"]" (some 50)).take 5)
  let content := jsTrim ("\nPR: " ++ title ++ "\n\nStatus: " ++ status ++ "\n\nDescription:\n"
    ++ description ++ "\n\nFiles changed: " ++ jsOr filesChanged "loading..."
    ++ "\n\nReviewers: " ++ jsOr reviewers "none yet" ++ "\n    ")
  buildResult d "github_pr" content
    [("title", .str title), ("status", .str status),
     ("filesChanged", .str (jsOr filesChanged "loading")),
     ("reviewers", .str (jsOr reviewers "none"))]

/-- `GitHubExtractor.extractIssue` (github.js lines 84-110). -/
def githubIssue (d : Doc) : ExtractedContent :=
  let title := jsOr (getText d ".gh-header-title" (some 500)) (getText d "bdi.js-issue-title" (some 500))
  let body := getText d ".comment-body" (some 400)
  let status := getText d ".State" (some 50)
  let labels := joinSep ", " (getMultiple d ".IssueLabel" (some 30))
  let content := jsTrim ("\nIssue: " ++ title ++ "\n\nStatus: " ++ status ++ "\n\nLabels: "
    ++ jsOr labels "none" ++ "\n\nDescription:\n" ++ body ++ "\n    ")
  buildResult d "github_issue" content
    [("title", .str title), ("status", .str status), ("labels", .str (jsOr labels "none"))]

/-- `GitHubExtractor.extractCodeFile` (github.js lines 115-133). -/
def githubCode (d : Doc) : ExtractedContent :=
  let filename := jsOr (getText d ".final-path" (some 200)) (getText d "[data-path]" (some 200))
  let codeLines := (getMultiple d ".blob-code-inner" (some 200)).take 50
  let content := jsTrim ("\nFile: " ++ filename ++ "\n\nCode (first 50 lines):\n"
    ++ joinSep "\n" codeLines ++ "\n    ")
  buildResult d "github_code" content
    [("filename", .str filename), ("lines", .num codeLines.length)]

/-- `GitHubExtractor.extractRepo` (github.js lines 138-166). -/
def githubRepo (d : Doc) : ExtractedContent :=
  let repoName := jsOr (getText d "[itemprop=\"name\"]" (some 200)) (getText d ".repo-title" (some 200))
  let description := jsOr (getText d "[itemprop=\"about\"]" (some 300))
    (getText d ".repository-description" (some 300))
  let readme := jsOr (getText d "#readme article" (some 500)) (getText d ".markdown-body" (some 500))
  let topics := joinSep ", " (getMultiple d "[data-octo-click=\"topic\"]" (some 30))
  let content := jsTrim ("\nRepository: " ++ repoName ++ "\n\nDescription: " ++ description
    ++ "\n\nTopics: " ++ jsOr topics "none" ++ "\n\nREADME (first 500 chars):\n" ++ readme ++ "\n    ")
  buildResult d "github_repo" content
    [("repoName", .str repoName), ("description", .str description), ("topics", .str (jsOr topics "none"))]

/-- The `try` body of `GitHubExtractor.extract` (github.js lines 23-35):
route on `window.location.pathname` (whose access may throw). -/
def githubBody (d : Doc) : Except String ExtractedContent := do
  let path ← d.pathname
  if containsSub path "/pull/" then return githubPR d
  else if containsSub path "/issues/" then return githubIssue d
  else if containsSub path "/blob/" then return githubCode d
  else return githubRepo d

/-- `AtlassianExtractor.extractJiraIssue` (atlassian.js lines 43-84). -/
def jiraIssue (d : Doc) : ExtractedContent :=
  let issueKey := jsOr (jsOr (jsOr
    (getText d "[data-testid=\"issue.views.issue-base.foundation.breadcrumbs.current-issue.item\"]" (some 50))
    (getText d "[data-test-id=\"issue.views.issue-base.foundation.breadcrumbs.current-issue.item\"]" (some 50)))
    (getText d "#key-val" (some 50)))
    (getText d "[data-testid=\"issue.views.field.rich-text.summary\"]" (some 50))
  let title := jsOr (jsOr
    (getText d "[data-testid=\"issue.views.issue-base.foundation.summary.heading\"]" (some 300))
    (getText d "#summary-val" (some 300)))
    (getText d "h1" (some 300))
  let status := jsOr (jsOr
    (getText d "[data-testid=\"issue.views.field.status.common.ui.status-lozenge\"]" (some 50))
    (getText d "#status-val" (some 50)))
    (getText d "[data-test-id=\"issue-field-status\"]" (some 50))
  let description := jsOr (jsOr
    (getText d "[data-testid=\"issue.views.field.rich-text.description\"]" (some 400))
    (getText d "#description-val" (some 400)))
    (getText d ".user-content-block" (some 400))
  let assignee := jsOr (getText d "[data-testid=\"issue.views.field.user.assignee\"]" (some 100))
    (getText d "#assignee-val" (some 100))
  let content := jsTrim ("\nJira Issue: " ++ issueKey ++ "\n\nTitle: " ++ title ++ "\n\nStatus: "
    ++ status ++ "\n\nAssignee: " ++ jsOr assignee "Unassigned" ++ "\n\nDescription:\n"
    ++ description ++ "\n    ")
  buildResult d "jira_issue" content
    [("issueKey", .str issueKey), ("title", .str title), ("status", .str status),
     ("assignee", .str (jsOr assignee "Unassigned"))]

/-- `AtlassianExtractor.extractConfluence` (atlassian.js lines 89-113). -/
def confluencePage (d : Doc) : ExtractedContent :=
  let pageTitle := jsOr (jsOr (getText d "#title-text" (some 300))
    (getText d "[data-testid=\"content-title\"]" (some 300)))
    (getText d "h1" (some 300))
  let pageContent := jsOr (jsOr (getText d "#main-content" (some 600))
    (getText d ".wiki-content" (some 600)))
    (getText d "[data-testid=\"content-body\"]" (some 600))
  let breadcrumbs := joinSep " > " (getMultiple d "#breadcrumb-section a" (some 50))
  let content := jsTrim ("\nConfluence Page: " ++ pageTitle ++ "\n\nPath: "
    ++ jsOr breadcrumbs "N/A" ++ "\n\nContent:\n" ++ pageContent ++ "\n    ")
  buildResult d "confluence_page" content
    [("pageTitle", .str pageTitle), ("breadcrumbs", .str (jsOr breadcrumbs "N/A"))]

/-- The `try` body of `AtlassianExtractor.extract` (atlassian.js lines
21-33): route on pathname and full URL. -/
def atlassianBody (d : Doc) : Except String ExtractedContent := do
  let path ← d.pathname
  let url := d.href
  if containsSub path "/browse/" || containsSub path "/jira/" || containsSub url "selectedIssue=" then
    return jiraIssue d
  else if containsSub path "/wiki/" || containsSub path "/confluence/" then
    return confluencePage d
  else
    return buildResult d "atlassian_unknown" d.title []

/-- `GmailExtractor.isEmailOpen` (part_001 lines 170-177): three raw
`querySelector` calls joined by short-circuiting `||`. -/
def gmailIsEmailOpen (d : Doc) : Except String Bool := do
  let a ← d.queryText "[data-message-id]"
  if a.isSome then return true
  let b ← d.queryText ".a3s"
  if b.isSome then return true
  let c ← d.queryText "[role=\"main\"] [role=\"article\"]"
  return c.isSome

/-- `GmailExtractor.extractOpenEmail` (part_001 lines 182-222). -/
def gmailOpenEmail (d : Doc) : ExtractedContent :=
  let subject := jsOr (jsOr (getText d "h2[data-legacy-thread-id]" (some 300))
    (getText d ".hP" (some 300)))
    (getText d "[role=\"heading\"]" (some 300))
  let sender := jsOr (jsOr (getText d ".gD" (some 100)) (getText d ".go" (some 100)))
    (getText d "[email]" (some 100))
  let senderEmail := jsOr (getText d ".gD[email]" (some 100)) (getText d ".go[email]" (some 100))
  let body := jsOr (jsOr (getText d ".a3s" (some 500))
    (getText d "[data-message-id] .a3s" (some 500)))
    (getText d ".ii" (some 500))
  let date := jsOr (getText d ".g3" (some 100)) (getText d "[data-tooltip*=\"GMT\"]" (some 100))
  let content := jsTrim ("\nSubject: " ++ subject ++ "\n\nFrom: " ++ sender
    ++ (if senderEmail.data.isEmpty then "" else " <" ++ senderEmail ++ ">")
    ++ "\n\nDate: " ++ jsOr date "Unknown" ++ "\n\nMessage:\n" ++ body ++ "\n    ")
  buildResult d "gmail_email" content
    [("subject", .str subject), ("sender", .str sender),
     ("senderEmail", .str (jsOr senderEmail "unknown")), ("date", .str (jsOr date "unknown"))]

/-- `GmailExtractor.extractInboxView` (part_001 lines 227-243). -/
def gmailInbox (d : Doc) : ExtractedContent :=
  let emailSubjects := (getMultiple d "[role=\"main\"] .zA" (some 100)).take 10
  let content :=
    if 0 < emailSubjects.length then
      "Gmail inbox - " ++ toString emailSubjects.length ++ " visible emails:\n\n"
        ++ joinSep "\n" (numberLines 1 emailSubjects)
    else "Gmail inbox - no email currently open"
  buildResult d "gmail_inbox" content [("emailCount", .num emailSubjects.length)]

/-- The `try` body of `GmailExtractor.extract` (part_001 lines 152-160). -/
def gmailBody (d : Doc) : Except String ExtractedContent := do
  let isOpen ← gmailIsEmailOpen d
  if isOpen then return gmailOpenEmail d else return gmailInbox d

/-- `CalendarExtractor.extractOpenEvent` (calendar.js lines 40-74): `null`
(`none`) when no event-detail overlay is open. -/
def calOpenEvent (d : Doc) : Option ExtractedContent :=
  let eventTitle := jsOr (getText d "[data-event-title]" (some 300))
    (getText d "[role=\"dialog\"] [data-is-event-title=\"true\"]" (some 300))
  if eventTitle.data.isEmpty then none
  else
    let eventTime := jsOr (getText d "[data-is-time=\"true\"]" (some 100))
      (getText d "[role=\"dialog\"] [data-start-time]" (some 100))
    let eventLocation := jsOr (getText d "[data-is-location=\"true\"]" (some 200))
      (getText d "[role=\"dialog\"] [data-location]" (some 200))
    let eventDescription := jsOr (getText d "[data-is-description=\"true\"]" (some 400))
      (getText d "[role=\"dialog\"] [aria-label*=\"description\"]" (some 400))
    let content := jsTrim ("\nEvent: " ++ eventTitle ++ "\n\nTime: " ++ jsOr eventTime "N/A"
      ++ "\n\nLocation: " ++ jsOr eventLocation "N/A" ++ "\n\nDescription:\n"
      ++ jsOr eventDescription "No description" ++ "\n    ")
    some (buildResult d "calendar_event" content
      [("eventTitle", .str eventTitle), ("eventTime", .str (jsOr eventTime "N/A")),
       ("eventLocation", .str (jsOr eventLocation "N/A"))])

/-- The event-chip selectors of `CalendarExtractor.extractVisibleEvents`
(calendar.js lines 108-113). -/
def calEventSelectors : List String :=
  ["[data-eventchip]", "[data-draggable-id]", "[role=\"button\"][data-eventid]", "[data-event-id]"]

/-- The selector loop of `extractVisibleEvents` (calendar.js lines
115-129): first selector with any matches wins; at most 20 chips are read,
cleaned, and empties dropped.  The raw `querySelectorAll` may throw. -/
def calEventsGo (d : Doc) : List String → Except String (List String)
  | [] => .ok []
  | sel :: rest => do
    let els ← d.queryTexts sel
    if 0 < els.length then
      return ((els.take 20).map cleanText).filter fun t => 0 < t.data.length
    else calEventsGo d rest

/-- Whether a string starts with a bullet (JS `/^•/`, calendar.js line 134). -/
def startsBullet (s : String) : Bool :=
  match s.data with
  | c :: _ => c = '•'
  | [] => false

/-- `CalendarExtractor.extractVisibleEvents` (calendar.js lines 104-139),
including the bullet-formatting pass. -/
def calVisibleEvents (d : Doc) : Except String (List String) := do
  let events ← calEventsGo d calEventSelectors
  return events.map fun e => if !startsNumColon e && !startsBullet e then "• " ++ e else e

/-- `CalendarExtractor.extractTodaySchedule` (calendar.js lines 79-99),
including `findNextEvent` (lines 144-154): the first event containing a
`digits:digits` pattern, else `null`. -/
def calSchedule (d : Doc) : Except String ExtractedContent := do
  let events ← calVisibleEvents d
  if events.length = 0 then
    return buildResult d "calendar_schedule" "No events scheduled for today" [("eventCount", .num 0)]
  let content := "Today\x27s schedule:\n\n" ++ joinSep "\n" events
  let nextEvent := events.find? fun e => hasTime e.data
  return buildResult d "calendar_schedule" content
    [("eventCount", .num events.length),
     ("nextEvent", .str (match nextEvent with
       | some e => jsOr e "No upcoming events"
       | none => "No upcoming events"))]

/-- The `try` body of `CalendarExtractor.extract` (calendar.js lines 22-30). -/
def calendarBody (d : Doc) : Except String ExtractedContent :=
  match calOpenEvent d with
  | some r => .ok r
  | none => calSchedule d

/-- `NotionExtractor.isDatabaseView` (notion.js): four raw `querySelector`
calls joined by short-circuiting `||`. -/
def notionIsDatabaseView (d : Doc) : Except String Bool := do
  let a ← d.queryText "[data-block-id*=\"collection\"]"
  if a.isSome then return true
  let b ← d.queryText ".notion-table-view"
  if b.isSome then return true
  let c ← d.queryText ".notion-board-view"
  if c.isSome then return true
  let e ← d.queryText ".notion-list-view"
  return e.isSome

/-- `NotionExtractor.extractPage` (notion.js). -/
def notionPage (d : Doc) : ExtractedContent :=
  let title := jsOr (jsOr (jsOr (getText d "[placeholder=\"Untitled\"]" (some 300))
    (getText d "[data-content-editable-leaf=\"true\"]" (some 300)))
    (getText d "h1" (some 300)))
    d.title
  let content := jsOr (jsOr (getText d "[data-block-id] [data-content-editable-root=\"true\"]" (some 800))
    (getText d ".notion-page-content" (some 800)))
    (getText d "[role=\"textbox\"]" (some 800))
  if content.data.isEmpty || content.data.length < 50 then
    let blocks := (getMultiple d "[data-block-id]" (some 200)).take 10
    let combinedContent := joinSep "\n\n" blocks
    buildResult d "notion_page" (title ++ "\n\n" ++ combinedContent)
      [("title", .str title), ("blockCount", .num blocks.length)]
  else
    buildResult d "notion_page" (title ++ "\n\n" ++ content) [("title", .str title)]

/-- `NotionExtractor.extractDatabase` (notion.js). -/
def notionDatabase (d : Doc) : ExtractedContent :=
  let title := jsOr (jsOr (getText d "[placeholder=\"Untitled\"]" (some 300))
    (getText d "h1" (some 300)))
    d.title
  let rowTitles := (getMultiple d "[data-block-id] a" (some 100)).take 15
  if rowTitles.length = 0 then
    let cells := (getMultiple d ".notion-table-view-cell" (some 100)).take 15
    if 0 < cells.length then
      buildResult d "notion_database"
        (title ++ "\n\nDatabase view with " ++ toString cells.length ++ " visible items:\n\n"
          ++ joinSep "\n" cells)
        [("title", .str title), ("itemCount", .num cells.length)]
    else
      buildResult d "notion_database"
        (title ++ "\n\nDatabase view with " ++ toString rowTitles.length ++ " visible items:\n\n"
          ++ joinSep "\n" rowTitles)
        [("title", .str title), ("itemCount", .num rowTitles.length)]
  else
    buildResult d "notion_database"
      (title ++ "\n\nDatabase view with " ++ toString rowTitles.length ++ " visible items:\n\n"
        ++ joinSep "\n" rowTitles)
      [("title", .str title), ("itemCount", .num rowTitles.length)]

/-- The `try` body of `NotionExtractor.extract` (notion.js). -/
def notionBody (d : Doc) : Except String ExtractedContent := do
  let isDb ← notionIsDatabaseView d
  if isDb then return notionDatabase d else return notionPage d

/-- `LinearExtractor.extractIssue` (linear.js): the issue id falls back to
` window.location.pathname.split('/').pop()` only when both selectors
come up empty (short-circuiting `||`), so the pathname read (which may
throw) happens only then. -/
def linearIssue (d : Doc) : Except String ExtractedContent := do
  let idFromText := jsOr (getText d "[data-entity-id]" (some 50))
    (getText d ".issue-identifier" (some 50))
  let issueId ←
    if idFromText.data.isEmpty then do
      let p ← d.pathname
      pure (String.mk (((splitOnChar '/' p.data).getLast?).getD []))
    else pure idFromText
  let title := jsOr (jsOr (getText d "[data-key=\"title\"]" (some 300))
    (getText d "h1" (some 300)))
    (getText d "[placeholder=\"Issue title\"]" (some 300))
  let status := jsOr (getText d "[data-key=\"state\"]" (some 50)) (getText d ".status-button" (some 50))
  let priority := jsOr (getText d "[data-key=\"priority\"]" (some 50)) (getText d ".priority-icon" (some 50))
  let description := jsOr (getText d "[data-key=\"description\"]" (some 400))
    (getText d ".ProseMirror" (some 400))
  let assignee := getText d "[data-key=\"assignee\"]" (some 100)
  let content := jsTrim ("\nLinear Issue: " ++ issueId ++ "\n\nTitle: " ++ title
    ++ "\n\nStatus: " ++ jsOr status "Unknown" ++ "\n\nPriority: " ++ jsOr priority "None"
    ++ "\n\nAssignee: " ++ jsOr assignee "Unassigned" ++ "\n\nDescription:\n"
    ++ jsOr description "No description" ++ "\n    ")
  return buildResult d "linear_issue" content
    [("issueId", .str issueId), ("title", .str title), ("status", .str (jsOr status "Unknown")),
     ("priority", .str (jsOr priority "None")), ("assignee", .str (jsOr assignee "Unassigned"))]

/-- `LinearExtractor.extractBoardView` (linear.js): the raw
`querySelectorAll` for issue cards may throw; only the first 10 cards are
read, and a card contributes `id: title [status]`, or its bare title, or
nothing. -/
def linearBoard (d : Doc) : Except String ExtractedContent := do
  let cards ← d.linearCards
  let fromCards := (cards.take 10).filterMap fun card =>
    let id := cleanText (card.identifier.getD "")
    let title := cleanText (card.title.getD "")
    let status := cleanText (card.state.getD "")
    if !id.data.isEmpty && !title.data.isEmpty then
      some (id ++ ": " ++ title ++ (if status.data.isEmpty then "" else " [" ++ status ++ "]"))
    else if !title.data.isEmpty then some title
    else none
  let issues :=
    if fromCards.length = 0 then (getMultiple d "[role=\"button\"] h3" (some 100)).take 10
    else fromCards
  let content :=
    if 0 < issues.length then
      "Linear board/list view - " ++ toString issues.length ++ " visible issues:\n\n"
        ++ joinSep "\n" issues
    else "Linear board/list view (issues loading)"
  return buildResult d "linear_board" content [("issueCount", .num issues.length)]

/-- The `try` body of `LinearExtractor.extract` (linear.js). -/
def linearBody (d : Doc) : Except String ExtractedContent := do
  let path ← d.pathname
  if containsSub path "/issue/" then linearIssue d else linearBoard d

/-- The closed set of extractor variants (registry.js plus the generic
fallback). -/
inductive ExtractorId where
  | github
  | atlassian
  | gmail
  | calendar
  | notion
  | linear
  | generic
deriving DecidableEq

/-- Each variant's `domains` getter. -/
def domains : ExtractorId → List String
  | .github => ["github.com"]
  | .atlassian => ["atlassian.net", "jira.com"]
  | .gmail => ["mail.google.com"]
  | .calendar => ["calendar.google.com"]
  | .notion => ["notion.so", "notion.com"]
  | .linear => ["linear.app"]
  | .generic => []

/-- Each variant's `name` getter. -/
def extractorName : ExtractorId → String
  | .github => "GitHub"
  | .atlassian => "Atlassian"
  | .gmail => "Gmail"
  | .calendar => "Google Calendar"
  | .notion => "Notion"
  | .linear => "Linear"
  | .generic => "Generic"

/-- `canHandle`: every site variant inherits the base-class default; the
generic extractor overrides it to `false` (generic.js lines 25-27). -/
def canHandle (e : ExtractorId) (url : String) : Bool :=
  match e with
  | .generic => false
  | e => canHandleDefault (domains e) url

/-- The `try` body of each variant's `extract()`. -/
def extractBody (e : ExtractorId) (d : Doc) : Except String ExtractedContent :=
  match e with
  | .github => githubBody d
  | .atlassian => atlassianBody d
  | .gmail => gmailBody d
  | .calendar => calendarBody d
  | .notion => notionBody d
  | .linear => linearBody d
  | .generic => genericBody d

/-- A variant's `extract()`: the `try` body under the common failure
boundary, which converts any exception into `buildFallbackResult
(error.message)`.  Total — the JS contract that `extract()` never throws. -/
def extract (e : ExtractorId) (d : Doc) : ExtractedContent :=
  match extractBody e d with
  | .ok r => r
  | .error msg => buildFallbackResult d msg

/-- The `EXTRACTORS` master list, in source order (registry.js lines
32-39). -/
def EXTRACTORS : List ExtractorId :=
  [.github, .atlassian, .gmail, .calendar, .notion, .linear]

/-- `getExtractor` (registry.js lines 51-69): first registered extractor
whose `canHandle` accepts the URL, else the generic fallback. -/
def getExtractor (url : String) : ExtractorId :=
  (EXTRACTORS.find? fun e => canHandle e url).getD .generic

/-- `testUrl` (registry.js lines 128-131). -/
def testUrl (url : String) : String :=
  extractorName (getExtractor url)

/-- How the `Promise.race` of `extractCurrentPage` (registry.js lines
84-90) settles: either the extraction promise settles first — with the
variant's value, or with a synchronously-thrown exception that escaped the
variant's own boundary — or the 2-second timer rejects first.  Real time
is outside the embedding; the outcome records which branch won. -/
inductive RaceOutcome where
  | settled (r : Except String ExtractedContent)
  | timedOut

/-- The error value built by the `catch` of `extractCurrentPage`
(registry.js lines 99-108). -/
def dispatchError (d : Doc) (msg : String) : ExtractedContent :=
  { url := d.href
    title := jsOr d.title "Untitled"
    domain := d.hostname
    content := "(timeout or error: " ++ msg ++ ")"
    type := "error"
    extractionMethod := "fallback"
    metadata := [("error", .str msg)]
    timestamp := d.now }

/-- `extractCurrentPage` (registry.js lines 76-110): return the settled
extraction value, or convert a rejection/timeout into the error shape.
Total — the Dispatcher never propagates an exception. -/
def extractCurrentPage (d : Doc) (outcome : RaceOutcome) : ExtractedContent :=
  match outcome with
  | .settled (.ok r) => r
  | .settled (.error msg) => dispatchError d msg
  | .timedOut => dispatchError d "Extraction timeout"

/-- In the deterministic model, the value with which the extraction
promise settles when nothing throws around the variant call. -/
def settledValue (d : Doc) : ExtractedContent :=
  extract (getExtractor d.href) d

/-- What one `logPageVisit` call did: whether the Dispatcher was invoked,
and the `LOG_VISIT` record sent to the background (if any). -/
structure LogOutcome where
  invokedDispatcher : Bool
  sent : Option ExtractedContent
deriving DecidableEq

/-- `logPageVisit` (content script, part_000 lines 17-45): skip
internal/browser-native schemes and body-less pages before invoking the
Dispatcher; otherwise send the extracted record as a `LOG_VISIT` message. -/
def logPageVisit (d : Doc) (outcome : RaceOutcome) : LogOutcome :=
  if jsStartsWith d.href "chrome://" || jsStartsWith d.href "chrome-extension://"
      || jsStartsWith d.href "about:" then
    { invokedDispatcher := false, sent := none }
  else if !d.hasBody then
    { invokedDispatcher := false, sent := none }
  else
    { invokedDispatcher := true, sent := some (extractCurrentPage d outcome) }

/-- A 300-character article text (the unknown-site scenario of the spec). -/
def loremText : String :=
  String.mk (List.replicate 300 'a')

/-- An unknown-site page whose `<article>` element holds 300 characters of
text (spec section 8, unknown-site end-to-end scenario). -/
def articleDoc : Doc :=
  { href := "https://random-blog.example/post"
    hostname := "random-blog.example"
    pathname := .ok "/post"
    title := "Random Blog"
    now := 0
    queryText := fun sel => if sel = "article" then .ok (some loremText) else .ok none
    queryTexts := fun _ => .ok []
    bodyNoiseFreeText := .ok ""
    linearCards := .ok []
    hasBody := true }

/-- A GitHub page whose `location.pathname` getter throws `"boom"`. -/
def boomDoc : Doc :=
  { href := "https://github.com/octo/repo/pull/1"
    hostname := "github.com"
    pathname := .error "boom"
    title := "Pull request"
    now := 0
    queryText := fun _ => .ok none
    queryTexts := fun _ => .ok []
    bodyNoiseFreeText := .ok ""
    linearCards := .ok []
    hasBody := true }

/-- A long exception message containing tag syntax: a `<`, 2000 `x`s and a
`>`. -/
def tagReason : String :=
  String.mk ('<' :: (List.replicate 2000 'x' ++ ['>']))

/-- A GitHub page whose `location.pathname` getter throws the long
tag-bearing message. -/
def tagReasonDoc : Doc :=
  { boomDoc with pathname := .error tagReason }

/-- An internal browser page (`chrome://`). -/
def chromeDoc : Doc :=
  { href := "chrome://settings"
    hostname := ""
    pathname := .ok "/"
    title := "Settings"
    now := 0
    queryText := fun _ => .ok none
    queryTexts := fun _ => .ok []
    bodyNoiseFreeText := .ok ""
    linearCards := .ok []
    hasBody := true }

/-- A GitHub page whose `location.pathname` getter throws a short message
containing markup-tag syntax. -/
def shortTagDoc : Doc :=
  { boomDoc with pathname := .error "<b>" }

theorem hasGt_false_of_cons {c : Char} {cs : List Char} (h : hasGt (c :: cs) = false) :
    ¬c = '>' ∧ hasGt cs = false := by
  simp [hasGt] at h
  exact ⟨h.1, h.2⟩

theorem hasGt_false_hasTag : ∀ {l : List Char}, hasGt l = false → hasTag l = false := by
  intro l
  induction l with
  | nil => intro _; rfl
  | cons c cs ih =>
    intro h
    obtain ⟨hc, hcs⟩ := hasGt_false_of_cons h
    simp [hasTag, hcs, ih hcs]

theorem hasGt_reverse : ∀ l : List Char, hasGt l.reverse = hasGt l := by
  have append : ∀ x y : List Char, hasGt (x ++ y) = (hasGt x || hasGt y) := by
    intro x y
    induction x with
    | nil => simp [hasGt]
    | cons c cs ih => simp [hasGt, ih, Bool.or_assoc]
  intro l
  induction l with
  | nil => rfl
  | cons c cs ih =>
    simp [List.reverse_cons, append, hasGt, ih, Bool.or_comm]

theorem hasTag_cons_false {c : Char} {cs : List Char} (h : hasTag (c :: cs) = false) :
    hasTag cs = false := by
  by_cases hc : c = '<' <;> simp [hasTag, hc] at h
  · exact h.2
  · exact h

theorem stripGo_some_no_gt :
    ∀ (l buf : List Char), hasGt l = false → stripGo l (some buf) = buf.reverse ++ l := by
  intro l
  induction l with
  | nil => intro buf _; simp [stripGo]
  | cons c cs ih =>
    intro buf h
    obtain ⟨hc, hcs⟩ := hasGt_false_of_cons h
    simp only [stripGo, if_neg hc]
    rw [ih (c :: buf) hcs]
    simp

theorem hasTag_stripGo (l : List Char) :
    (∀ buf, hasGt buf = false → hasTag (stripGo l (some buf)) = false)
      ∧ hasTag (stripGo l none) = false := by
  induction l with
  | nil =>
    refine ⟨fun buf hb => ?_, rfl⟩
    simp only [stripGo]
    exact hasGt_false_hasTag ((hasGt_reverse buf).trans hb)
  | cons c cs ih =>
    constructor
    · intro buf hb
      simp only [stripGo]
      by_cases hc : c = '>'
      · simp [hc, ih.2]
      · have hcb : hasGt (c :: buf) = false := by simp [hasGt, hc, hb]
        simp [hc, ih.1 (c :: buf) hcb]
    · simp only [stripGo]
      by_cases hc : c = '<'
      · have : hasGt ['<'] = false := by decide
        simp [hc, ih.1 ['<'] this]
      · simp [hc, hasTag, ih.2]

theorem hasTag_stripTags (l : List Char) : hasTag (stripTags l) = false :=
  (hasTag_stripGo l).2

theorem stripTags_id : ∀ {l : List Char}, hasTag l = false → stripTags l = l := by
  intro l
  induction l with
  | nil => intro _; rfl
  | cons c cs ih =>
    intro h
    by_cases hc : c = '<'
    · have hgt : hasGt cs = false := by
        simp [hasTag, hc] at h
        exact h.1
      simp only [stripTags, stripGo, if_pos hc]
      rw [stripGo_some_no_gt cs [c] hgt]
      simp
    · have hcs : hasTag cs = false := hasTag_cons_false h
      simp only [stripTags, stripGo, if_neg hc]
      have := ih hcs
      simp only [stripTags] at this
      rw [this]

theorem ws_ne_lt {c : Char} (h : isJsWs c = true) : ¬c = '<' := by
  intro hc; subst hc; exact absurd h (by decide)

theorem ws_ne_gt {c : Char} (h : isJsWs c = true) : ¬c = '>' := by
  intro hc; subst hc; exact absurd h (by decide)

theorem hasGt_cons_intro {c : Char} {cs : List Char} (hc : ¬c = '>') (h : hasGt cs = false) :
    hasGt (c :: cs) = false := by
  simp [hasGt, hc, h]

theorem hasTag_cons_of_not_lt {c : Char} {cs : List Char} (hc : ¬c = '<')
    (h : hasTag cs = false) : hasTag (c :: cs) = false := by
  simp [hasTag, hc, h]

theorem hasTag_cons_of_no_gt {c : Char} {cs : List Char} (h : hasGt cs = false) :
    hasTag (c :: cs) = false := by
  by_cases hc : c = '<' <;> simp [hasTag, hc, h, hasGt_false_hasTag h]

theorem hasGt_collapseGo :
    ∀ (l : List Char) (b : Bool), hasGt l = false → hasGt (collapseGo b l) = false := by
  intro l
  induction l with
  | nil => intro b _; cases b <;> rfl
  | cons c cs ih =>
    intro b h
    obtain ⟨hc, hcs⟩ := hasGt_false_of_cons h
    by_cases hw : isJsWs c
    · cases b <;> simp [collapseGo, hw, hasGt, ih true hcs]
    · simp [collapseGo, hw, hasGt, hc, ih false hcs]

theorem hasTag_collapseGo :
    ∀ (l : List Char) (b : Bool), hasTag l = false → hasTag (collapseGo b l) = false := by
  intro l
  induction l with
  | nil => intro b _; cases b <;> rfl
  | cons c cs ih =>
    intro b h
    have hcs : hasTag cs = false := hasTag_cons_false h
    by_cases hw : isJsWs c
    · cases b with
      | true => simp [collapseGo, hw, ih true hcs]
      | false =>
        simp only [collapseGo, hw, if_true]
        exact hasTag_cons_of_not_lt (by decide) (ih true hcs)
    · by_cases hc : c = '<'
      · have hgt : hasGt cs = false := by
          simp [hasTag, hc] at h
          exact h.1
        simp only [collapseGo, hw, Bool.false_eq_true, if_false]
        exact hasTag_cons_of_no_gt (hasGt_collapseGo cs false hgt)
      · simp only [collapseGo, hw, Bool.false_eq_true, if_false]
        exact hasTag_cons_of_not_lt hc (ih false hcs)

theorem hasTag_dropWhile (p : Char → Bool) :
    ∀ l : List Char, hasTag l = false → hasTag (l.dropWhile p) = false := by
  intro l
  induction l with
  | nil => intro _; rfl
  | cons c cs ih =>
    intro h
    by_cases hp : p c
    · simp only [List.dropWhile, hp]
      exact ih (hasTag_cons_false h)
    · simpa only [List.dropWhile, hp] using h

theorem hasGt_trimRight : ∀ l : List Char, hasGt l = false → hasGt (trimRight l) = false := by
  intro l
  induction l with
  | nil => intro _; rfl
  | cons c cs ih =>
    intro h
    obtain ⟨hc, hcs⟩ := hasGt_false_of_cons h
    simp only [trimRight]
    cases htr : trimRight cs with
    | nil =>
      by_cases hw : isJsWs c <;> simp [hw, hasGt, hc]
    | cons d ds =>
      have := ih hcs
      rw [htr] at this
      simp [hasGt, hc, hasGt_false_of_cons this]

theorem hasTag_trimRight : ∀ l : List Char, hasTag l = false → hasTag (trimRight l) = false := by
  intro l
  induction l with
  | nil => intro _; rfl
  | cons c cs ih =>
    intro h
    have hcs : hasTag cs = false := hasTag_cons_false h
    simp only [trimRight]
    cases htr : trimRight cs with
    | nil =>
      by_cases hw : isJsWs c
      · simp [hw]; rfl
      · simp only [hw, Bool.false_eq_true, if_false]
        exact hasTag_cons_of_no_gt rfl
    | cons d ds =>
      have htcs := ih hcs
      rw [htr] at htcs
      by_cases hc : c = '<'
      · have hgt : hasGt cs = false := by
          simp [hasTag, hc] at h
          exact h.1
        have hgtr := hasGt_trimRight cs hgt
        rw [htr] at hgtr
        exact hasTag_cons_of_no_gt hgtr
      · exact hasTag_cons_of_not_lt hc htcs

theorem hasGt_take : ∀ (n : Nat) (l : List Char), hasGt l = false → hasGt (l.take n) = false := by
  intro n
  induction n with
  | zero => intro l _; rfl
  | succ n ih =>
    intro l h
    cases l with
    | nil => rfl
    | cons c cs =>
      obtain ⟨hc, hcs⟩ := hasGt_false_of_cons h
      simp [List.take, hasGt, hc, ih cs hcs]

theorem hasTag_take : ∀ (n : Nat) (l : List Char), hasTag l = false → hasTag (l.take n) = false := by
  intro n
  induction n with
  | zero => intro l _; rfl
  | succ n ih =>
    intro l h
    cases l with
    | nil => rfl
    | cons c cs =>
      have hcs := hasTag_cons_false h
      by_cases hc : c = '<'
      · have hgt : hasGt cs = false := by
          simp [hasTag, hc] at h
          exact h.1
        simp [List.take, hasTag, hc, hasGt_take n cs hgt, ih cs hcs]
      · simp [List.take, hasTag, hc, ih cs hcs]

theorem hasTag_trimList (l : List Char) (h : hasTag l = false) : hasTag (trimList l) = false :=
  hasTag_trimRight _ (hasTag_dropWhile isJsWs l h)

theorem hasTag_cleanText (s : String) : hasTag (cleanText s).data = false := by
  by_cases he : s.data.isEmpty
  · simp [cleanText, he]; rfl
  · simp only [cleanText, he, Bool.false_eq_true, if_false]
    exact hasTag_trimList _ (hasTag_collapseGo _ false (hasTag_stripTags s.data))

theorem noAdjWs_tail {c : Char} {cs : List Char} (h : noAdjWs (c :: cs) = true) :
    noAdjWs cs = true := by
  cases cs with
  | nil => rfl
  | cons d ds =>
    simp [noAdjWs] at h
    simpa [noAdjWs] using h.2

theorem noAdjWs_cons_intro {c : Char} {cs : List Char}
    (h1 : cs = [] ∨ ∃ d ds, cs = d :: ds ∧ (isJsWs c && isJsWs d) = false)
    (h2 : noAdjWs cs = true) : noAdjWs (c :: cs) = true := by
  rcases h1 with h1 | ⟨d, ds, rfl, hcd⟩
  · subst h1; rfl
  · simp only [noAdjWs, Bool.and_eq_true, Bool.not_eq_true']
    exact ⟨hcd, h2⟩

theorem noAdjWs_cons_cons {a b : Char} {l : List Char} (h : noAdjWs (a :: b :: l) = true) :
    (isJsWs a && isJsWs b) = false ∧ noAdjWs (b :: l) = true := by
  simp only [noAdjWs, Bool.and_eq_true, Bool.not_eq_true'] at h
  exact h

theorem headNonWs_collapseGo_true :
    ∀ l : List Char, headNonWs (collapseGo true l) = true := by
  intro l
  induction l with
  | nil => rfl
  | cons c cs ih =>
    by_cases hw : isJsWs c
    · simpa [collapseGo, hw] using ih
    · simp [collapseGo, hw, headNonWs]

theorem noAdjWs_collapseGo : ∀ (l : List Char) (b : Bool), noAdjWs (collapseGo b l) = true := by
  intro l
  induction l with
  | nil => intro b; cases b <;> rfl
  | cons c cs ih =>
    intro b
    by_cases hw : isJsWs c
    · cases b with
      | true => simpa [collapseGo, hw] using ih true
      | false =>
        simp only [collapseGo, hw, if_true]
        apply noAdjWs_cons_intro
        · cases hcg : collapseGo true cs with
          | nil => exact Or.inl rfl
          | cons d ds =>
            refine Or.inr ⟨d, ds, rfl, ?_⟩
            have := headNonWs_collapseGo_true cs
            rw [hcg] at this
            simp [headNonWs] at this
            simp [this]
        · exact ih true
    · simp only [collapseGo, hw, Bool.false_eq_true, if_false]
      apply noAdjWs_cons_intro
      · cases hcg : collapseGo false cs with
        | nil => exact Or.inl rfl
        | cons d ds =>
          refine Or.inr ⟨d, ds, rfl, ?_⟩
          simp [hw]
      · exact ih false

theorem allWsSpace_collapseGo : ∀ (l : List Char) (b : Bool), allWsSpace (collapseGo b l) = true := by
  intro l
  induction l with
  | nil => intro b; cases b <;> rfl
  | cons c cs ih =>
    intro b
    by_cases hw : isJsWs c
    · cases b with
      | true => simpa [collapseGo, hw] using ih true
      | false =>
        have h2 := ih true
        simp only [allWsSpace] at h2 ⊢
        simp [collapseGo, hw, List.all_cons, h2]
    · have h2 := ih false
      simp only [allWsSpace] at h2 ⊢
      cases b <;> simp [collapseGo, hw, List.all_cons, h2]

theorem allWsSpace_cons_split {c : Char} {cs : List Char} (h : allWsSpace (c :: cs) = true) :
    (!isJsWs c || c = ' ') = true ∧ allWsSpace cs = true := by
  simp only [allWsSpace, List.all_cons, Bool.and_eq_true] at h
  exact h

theorem collapseGo_false_id :
    ∀ l : List Char, noAdjWs l = true → allWsSpace l = true → collapseGo false l = l := by
  intro l
  induction l with
  | nil => intro _ _; rfl
  | cons c cs ih =>
    intro hadj hsp
    obtain ⟨hhd, hsp'⟩ := allWsSpace_cons_split hsp
    by_cases hw : isJsWs c
    · have hc : c = ' ' := by
        simp only [hw, Bool.not_true, Bool.false_or, decide_eq_true_eq] at hhd
        exact hhd
      subst hc
      have htail : collapseGo true cs = cs := by
        cases cs with
        | nil => rfl
        | cons d ds =>
          have hd : isJsWs d = false := by
            have h1 := (noAdjWs_cons_cons hadj).1
            simpa [show isJsWs ' ' = true from by decide] using h1
          have := ih (noAdjWs_tail hadj) hsp'
          simp only [collapseGo, hd, Bool.false_eq_true, if_false] at this ⊢
          exact this
      simp only [collapseGo, hw, if_true, htail]
      simp
    · simp only [collapseGo, hw, Bool.false_eq_true, if_false]
      rw [ih (noAdjWs_tail hadj) hsp']

theorem trimRight_head_eq :
    ∀ {l : List Char} {d : Char} {ds : List Char}, trimRight l = d :: ds → ∃ t, l = d :: t := by
  intro l
  induction l with
  | nil => intro d ds h; exact absurd h (by simp [trimRight])
  | cons c cs _ =>
    intro d ds h
    simp only [trimRight] at h
    cases htr : trimRight cs with
    | nil =>
      rw [htr] at h
      by_cases hw : isJsWs c
      · simp [hw] at h
      · simp [hw] at h
        exact ⟨cs, by rw [h.1]⟩
    | cons e es =>
      rw [htr] at h
      exact ⟨cs, by rw [(List.cons.injEq _ _ _ _).mp h |>.1]⟩

theorem mem_trimRight : ∀ {l : List Char} {a : Char}, a ∈ trimRight l → a ∈ l := by
  intro l
  induction l with
  | nil => intro a h; simp [trimRight] at h
  | cons c cs ih =>
    intro a h
    simp only [trimRight] at h
    cases htr : trimRight cs with
    | nil =>
      rw [htr] at h
      by_cases hw : isJsWs c <;> simp [hw] at h
      simp [h]
    | cons e es =>
      rw [htr] at h
      rcases List.mem_cons.mp h with h | h
      · simp [h]
      · exact List.mem_cons_of_mem c (ih (htr ▸ h))

theorem noAdjWs_dropWhile (p : Char → Bool) :
    ∀ l : List Char, noAdjWs l = true → noAdjWs (l.dropWhile p) = true := by
  intro l
  induction l with
  | nil => intro _; rfl
  | cons c cs ih =>
    intro h
    by_cases hp : p c
    · simp only [List.dropWhile, hp]
      exact ih (noAdjWs_tail h)
    · simpa only [List.dropWhile, hp] using h

theorem noAdjWs_trimRight : ∀ l : List Char, noAdjWs l = true → noAdjWs (trimRight l) = true := by
  intro l
  induction l with
  | nil => intro _; rfl
  | cons c cs ih =>
    intro h
    simp only [trimRight]
    cases htr : trimRight cs with
    | nil =>
      by_cases hw : isJsWs c <;> simp [hw, noAdjWs]
    | cons d ds =>
      have htcs := ih (noAdjWs_tail h)
      rw [htr] at htcs
      obtain ⟨t, ht⟩ := trimRight_head_eq htr
      apply noAdjWs_cons_intro (Or.inr ⟨d, ds, rfl, ?_⟩) htcs
      have := h
      rw [ht] at this
      exact (noAdjWs_cons_cons this).1

theorem headNonWs_dropWhile : ∀ l : List Char, headNonWs (l.dropWhile isJsWs) = true := by
  intro l
  induction l with
  | nil => rfl
  | cons c cs ih =>
    by_cases hw : isJsWs c
    · simpa only [List.dropWhile, hw] using ih
    · simp only [List.dropWhile, hw, Bool.false_eq_true, if_false, headNonWs,
        Bool.not_eq_true']

theorem headNonWs_trimRight {l : List Char} (h : headNonWs l = true) :
    headNonWs (trimRight l) = true := by
  cases htr : trimRight l with
  | nil => rfl
  | cons d ds =>
    obtain ⟨t, ht⟩ := trimRight_head_eq htr
    rw [ht] at h
    simpa [headNonWs] using h

theorem lastNonWs_trimRight : ∀ l : List Char, lastNonWs (trimRight l) = true := by
  intro l
  induction l with
  | nil => rfl
  | cons c cs ih =>
    simp only [trimRight]
    cases htr : trimRight cs with
    | nil =>
      by_cases hw : isJsWs c
      · simp [hw, lastNonWs]
      · simp [hw, lastNonWs]
    | cons d ds =>
      have := ih
      rw [htr] at this
      simpa [lastNonWs] using this

theorem allWsSpace_of_mem {l : List Char}
    (h : ∀ a ∈ l, (!isJsWs a || a = ' ') = true) : allWsSpace l = true := by
  simp only [allWsSpace, List.all_eq_true]
  exact h

theorem allWsSpace_mem {l : List Char} (h : allWsSpace l = true) :
    ∀ a ∈ l, (!isJsWs a || a = ' ') = true := by
  simpa only [allWsSpace, List.all_eq_true] using h

theorem allWsSpace_dropWhile (p : Char → Bool) {l : List Char} (h : allWsSpace l = true) :
    allWsSpace (l.dropWhile p) = true :=
  allWsSpace_of_mem fun a ha =>
    allWsSpace_mem h a ((l.dropWhile_sublist p).subset ha)

theorem allWsSpace_trimRight {l : List Char} (h : allWsSpace l = true) :
    allWsSpace (trimRight l) = true :=
  allWsSpace_of_mem fun a ha => allWsSpace_mem h a (mem_trimRight ha)

theorem dropWhile_headNonWs_id {l : List Char} (h : headNonWs l = true) :
    l.dropWhile isJsWs = l := by
  cases l with
  | nil => rfl
  | cons c cs =>
    simp only [headNonWs, Bool.not_eq_true'] at h
    simp [List.dropWhile, h]

theorem trimRight_lastNonWs_id : ∀ {l : List Char}, lastNonWs l = true → trimRight l = l := by
  intro l
  induction l with
  | nil => intro _; rfl
  | cons c cs ih =>
    intro h
    simp only [trimRight]
    cases cs with
    | nil =>
      simp only [lastNonWs, Bool.not_eq_true'] at h
      simp [trimRight, h]
    | cons d ds =>
      have htl : lastNonWs (d :: ds) = true := by
        simpa [lastNonWs] using h
      rw [ih htl]

theorem cleanText_norm (s : String) :
    noAdjWs (cleanText s).data = true ∧ headNonWs (cleanText s).data = true
      ∧ lastNonWs (cleanText s).data = true ∧ allWsSpace (cleanText s).data = true := by
  cases he : s.data.isEmpty with
  | true =>
    have h0 : cleanText s = "" := by simp [cleanText, he]
    rw [h0]
    exact ⟨rfl, rfl, rfl, rfl⟩
  | false =>
    have h0 : (cleanText s).data
        = trimRight ((collapseGo false (stripTags s.data)).dropWhile isJsWs) := by
      simp [cleanText, he, trimList, collapseWs]
    rw [h0]
    exact ⟨noAdjWs_trimRight _ (noAdjWs_dropWhile _ _ (noAdjWs_collapseGo _ false)),
      headNonWs_trimRight (headNonWs_dropWhile _),
      lastNonWs_trimRight _,
      allWsSpace_trimRight (allWsSpace_dropWhile _ (allWsSpace_collapseGo _ false))⟩

theorem cleanText_fixed {t : String} (h1 : stripTags t.data = t.data)
    (h2 : collapseGo false t.data = t.data) (h3 : t.data.dropWhile isJsWs = t.data)
    (h4 : trimRight t.data = t.data) : cleanText t = t := by
  cases he : t.data.isEmpty with
  | true =>
    have hnil : t.data = [] := by simpa using he
    simp only [cleanText, he, if_true]
    rw [show t = String.mk t.data from rfl, hnil]
  | false =>
    simp only [cleanText, he, Bool.false_eq_true, if_false, trimList, collapseWs]
    rw [h1, h2, h3, h4]

theorem cleanText_idem (s : String) : cleanText (cleanText s) = cleanText s := by
  obtain ⟨hadj, hhd, hlast, hsp⟩ := cleanText_norm s
  exact cleanText_fixed (stripTags_id (hasTag_cleanText s))
    (collapseGo_false_id _ hadj hsp) (dropWhile_headNonWs_id hhd)
    (trimRight_lastNonWs_id hlast)

theorem semGo_hundred_iff (d : Doc) :
    ∀ sels : List String,
      100 ≤ (semGo d sels).data.length
        ↔ ∃ sel ∈ sels, 100 ≤ (getText d sel).data.length := by
  intro sels
  induction sels with
  | nil =>
    simp only [semGo, List.not_mem_nil, false_and, exists_false, iff_false, not_le]
    decide
  | cons sel rest ih =>
    by_cases h : 100 ≤ (getText d sel).data.length
    · simp only [semGo, if_pos h]
      constructor
      · intro _
        exact ⟨sel, List.mem_cons_self sel rest, h⟩
      · intro _
        exact h
    · simp only [semGo, if_neg h]
      rw [ih]
      constructor
      · rintro ⟨x, hx, hP⟩
        exact ⟨x, List.mem_cons_of_mem _ hx, hP⟩
      · rintro ⟨x, hx, hP⟩
        rcases List.mem_cons.mp hx with rfl | hx
        · exact absurd hP h
        · exact ⟨x, hx, hP⟩

theorem buildResult_content_le (d : Doc) (type content : String) (m : List (String × JsVal)) :
    (buildResult d type content m).content.data.length ≤ 2000 := by
  show ((cleanText content).data.take 2000).length ≤ 2000
  rw [List.length_take]
  exact min_le_left _ _

theorem buildResult_content_noTag (d : Doc) (type content : String) (m : List (String × JsVal)) :
    hasTag (buildResult d type content m).content.data = false := by
  show hasTag ((cleanText content).data.take 2000) = false
  exact hasTag_take _ _ (hasTag_cleanText content)

/-- C1: on the unknown-site page with a 300-character `<article>`, the
registry does fall through to the Generic extractor and layer 1 fires
(`type = "generic_semantic"`, `metadata.layer = 1`) — but the returned
`extractionMethod` is `"site_specific"`, not `"generic"` as the spec
requires, because `buildResult` hardcodes `'site_specific'` and
`GenericExtractor` never overrides it. -/
theorem generic_article_reports_site_specific :
    getExtractor articleDoc.href = ExtractorId.generic
      ∧ (extract .generic articleDoc).type = "generic_semantic"
      ∧ List.lookup "layer" (extract .generic articleDoc).metadata = some (.num 1)
      ∧ (extract .generic articleDoc).extractionMethod = "site_specific" := by
  refine ⟨by decide, by decide, by decide, by decide⟩

/-- C2 counterexample: `buildFallbackResult` embeds the raw failure reason
in `content` with neither `cleanText` nor the 2000-character cap, so a
thrown message containing `<b>` reaches callers with literal markup-tag
syntax, and a 2002-character message yields `content` longer than 2000. -/
theorem fallback_content_violates_invariant :
    hasTag (extract .github shortTagDoc).content.data = true
      ∧ 2000 < (extract .github tagReasonDoc).content.data.length := by
  constructor
  · decide
  · have h : extract .github tagReasonDoc = buildFallbackResult tagReasonDoc tagReason := rfl
    rw [h]
    have h2 : (buildFallbackResult tagReasonDoc tagReason).content.data
        = "Could not extract content: ".data ++ tagReason.data := rfl
    rw [h2, List.length_append]
    have h3 : tagReason.data = '<' :: (List.replicate 2000 'x' ++ ['>']) := rfl
    rw [h3]
    simp [List.length_replicate]

/-- C2 amended: every `ExtractedContent` assembled through `buildResult`
has `content` of length at most 2000 and free of markup-tag syntax;
`buildFallbackResult` and the Dispatcher error path instead embed the raw
reason/message after a fixed prefix, so those results satisfy the bounds
only when the reason text itself does. -/
theorem content_invariant_enforced_by_buildResult :
    (∀ (d : Doc) (type content : String) (m : List (String × JsVal)),
        (buildResult d type content m).content.data.length ≤ 2000
          ∧ hasTag (buildResult d type content m).content.data = false)
      ∧ (∀ (d : Doc) (reason : String),
          (buildFallbackResult d reason).content = "Could not extract content: " ++ reason)
      ∧ (∀ (d : Doc) (msg : String),
          (dispatchError d msg).content = "(timeout or error: " ++ msg ++ ")") :=
  ⟨fun d type content m => ⟨buildResult_content_le d type content m,
      buildResult_content_noTag d type content m⟩,
    fun _ _ => rfl, fun _ _ => rfl⟩

/-- C3: every variant's `extract()` is total (it never raises — it is a
Lean function into `ExtractedContent`), and whenever the variant's `try`
body ends in an exception, the returned record is the minimal fallback:
`type = "fallback"`, `extractionMethod = "fallback"`, and
`metadata.reason` carrying the failure message. -/
theorem extract_body_error_gives_fallback (e : ExtractorId) (d : Doc) (msg : String)
    (h : extractBody e d = .error msg) :
    extract e d = buildFallbackResult d msg
      ∧ (extract e d).type = "fallback"
      ∧ (extract e d).extractionMethod = "fallback"
      ∧ List.lookup "reason" (extract e d).metadata = some (.str msg) := by
  have hx : extract e d = buildFallbackResult d msg := by
    simp [extract, h]
  refine ⟨hx, by rw [hx]; rfl, by rw [hx]; rfl, by rw [hx]; rfl⟩

/-- C3 witness: a GitHub page whose `location.pathname` getter throws
`"boom"` makes the body error, and `extract` returns the fallback record. -/
theorem extract_body_error_gives_fallback_witness :
    extractBody .github boomDoc = .error "boom"
      ∧ extract .github boomDoc = buildFallbackResult boomDoc "boom" :=
  ⟨rfl, (extract_body_error_gives_fallback .github boomDoc "boom" rfl).1⟩

/-- C4: `extractCurrentPage` returns the settled extraction value as-is;
when the extraction promise rejects (an exception escaping the variant's
boundary) or the 2-second timer wins the race, it returns the error shape
(`type = "error"`, `extractionMethod = "fallback"`, `metadata.error` the
failure message) instead of propagating — a hanging variant is modelled by
the timer winning, so the caller still receives a value. -/
theorem extractCurrentPage_error_contract (d : Doc) (msg : String) (r : ExtractedContent) :
    extractCurrentPage d (.settled (.ok r)) = r
      ∧ (extractCurrentPage d (.settled (.error msg))).type = "error"
      ∧ (extractCurrentPage d (.settled (.error msg))).extractionMethod = "fallback"
      ∧ List.lookup "error" (extractCurrentPage d (.settled (.error msg))).metadata
          = some (.str msg)
      ∧ (extractCurrentPage d .timedOut).type = "error"
      ∧ (extractCurrentPage d .timedOut).extractionMethod = "fallback"
      ∧ List.lookup "error" (extractCurrentPage d .timedOut).metadata
          = some (.str "Extraction timeout") :=
  ⟨rfl, rfl, rfl, rfl, rfl, rfl, rfl⟩

/-- C5: `getExtractor` returns the first extractor in the fixed registry
order GitHub, Atlassian, Gmail, Calendar, Notion, Linear whose `canHandle`
accepts the URL, and the Generic extractor when none does; the Generic
extractor's own `canHandle` is constantly `false`. -/
theorem getExtractor_first_match (u : String) :
    getExtractor u =
      (if canHandle .github u then ExtractorId.github
       else if canHandle .atlassian u then .atlassian
       else if canHandle .gmail u then .gmail
       else if canHandle .calendar u then .calendar
       else if canHandle .notion u then .notion
       else if canHandle .linear u then .linear
       else .generic)
      ∧ canHandle .generic u = false := by
  refine ⟨?_, rfl⟩
  by_cases h1 : canHandle .github u = true <;>
    by_cases h2 : canHandle .atlassian u = true <;>
      by_cases h3 : canHandle .gmail u = true <;>
        by_cases h4 : canHandle .calendar u = true <;>
          by_cases h5 : canHandle .notion u = true <;>
            by_cases h6 : canHandle .linear u = true <;>
              simp [getExtractor, EXTRACTORS, List.find?, h1, h2, h3, h4, h5, h6]

/-- C6: the default domain-match predicate accepts a URL exactly when it
parses and its hostname equals one of the variant's domains or ends in
`"." + domain`; a parse failure yields `false` (and the predicate is a
total function, so it never throws).  The four concrete hosts of the spec
behave as claimed, and a non-URL is rejected. -/
theorem canHandle_domain_match :
    (∀ (D : List String) (u : String),
        canHandleDefault D u = true
          ↔ ∃ host, parseHost u = some host
              ∧ ∃ dom ∈ D, host = dom ∨ jsEndsWith host ("." ++ dom) = true)
      ∧ canHandleDefault ["example.com"] "https://example.com/" = true
      ∧ canHandleDefault ["example.com"] "https://sub.example.com/" = true
      ∧ canHandleDefault ["example.com"] "https://notexample.com/" = false
      ∧ canHandleDefault ["example.com"] "https://example.com.evil.com/" = false
      ∧ canHandleDefault ["example.com"] "not a url" = false := by
  refine ⟨?_, by decide, by decide, by decide, by decide, by decide⟩
  intro D u
  cases hp : parseHost u with
  | none => simp [canHandleDefault, hp]
  | some host =>
    simp only [canHandleDefault, hp, List.any_eq_true, Bool.or_eq_true, beq_iff_eq]
    constructor
    · rintro ⟨dom, hdom, hmatch⟩
      exact ⟨host, rfl, dom, hdom, hmatch⟩
    · rintro ⟨h, hh, dom, hdom, hmatch⟩
      cases Option.some.inj hh
      exact ⟨dom, hdom, hmatch⟩

/-- C7: `cleanText` is idempotent, and its output is whitespace-normal:
no two adjacent whitespace characters (every maximal whitespace run of the
input became a single space — each whitespace character left is a plain
space with non-whitespace neighbours), and no leading or trailing
whitespace. -/
theorem cleanText_idempotent_normal (s : String) :
    cleanText (cleanText s) = cleanText s
      ∧ noAdjWs (cleanText s).data = true
      ∧ headNonWs (cleanText s).data = true
      ∧ lastNonWs (cleanText s).data = true
      ∧ allWsSpace (cleanText s).data = true := by
  obtain ⟨h1, h2, h3, h4⟩ := cleanText_norm s
  exact ⟨cleanText_idem s, h1, h2, h3, h4⟩

/-- C8: the Generic extractor evaluates its three layers in order — layer
1 (`metadata.layer = 1`) exactly when some semantic selector, tried in the
fixed order beginning `article`, `main`, `[role="main"]`, yields cleaned
text of at least 100 characters; otherwise layer 2 when the body-minus-
noise text has at least 50; otherwise layer 3 with the page title or the
`"Untitled page"` placeholder. -/
theorem generic_layering (d : Doc) :
    extract .generic d =
      (if 100 ≤ (trySemanticSelectors d).data.length then
        buildResult d "generic_semantic" (trySemanticSelectors d) [("layer", JsVal.num 1)]
      else if 50 ≤ (tryBodyMinusNoise d).data.length then
        buildResult d "generic_body" (tryBodyMinusNoise d) [("layer", JsVal.num 2)]
      else buildResult d "generic_fallback" (jsOr d.title "Untitled page") [("layer", JsVal.num 3)])
      ∧ (100 ≤ (trySemanticSelectors d).data.length
          ↔ ∃ sel ∈ genericSelectors, 100 ≤ (getText d sel).data.length)
      ∧ genericSelectors.take 3 = ["article", "main", "[role=\"main\"]"] := by
  refine ⟨?_, semGo_hundred_iff d genericSelectors, rfl⟩
  by_cases h1 : 100 ≤ (trySemanticSelectors d).data.length
  · simp only [extract, extractBody, genericBody, h1, if_true]
    rfl
  · by_cases h2 : 50 ≤ (tryBodyMinusNoise d).data.length <;>
      simp only [extract, extractBody, genericBody, h1, h2, if_true, if_false] <;>
      rfl

/-- C9: a page whose address starts with `chrome://`,
`chrome-extension://` or `about:` is skipped by `logPageVisit` before the
Dispatcher runs: the Dispatcher is not invoked and no `LOG_VISIT` record
is sent. -/
theorem logPageVisit_skips_internal (d : Doc) (o : RaceOutcome)
    (h : (jsStartsWith d.href "chrome://" || jsStartsWith d.href "chrome-extension://"
        || jsStartsWith d.href "about:") = true) :
    logPageVisit d o = { invokedDispatcher := false, sent := none } := by
  simp [logPageVisit, h]

/-- C9 witness: `chrome://settings` is skipped. -/
theorem logPageVisit_skips_internal_witness :
    (jsStartsWith chromeDoc.href "chrome://" || jsStartsWith chromeDoc.href "chrome-extension://"
        || jsStartsWith chromeDoc.href "about:") = true
      ∧ logPageVisit chromeDoc .timedOut = { invokedDispatcher := false, sent := none } :=
  ⟨by decide, logPageVisit_skips_internal chromeDoc .timedOut (by decide)⟩

/-- C10: `cleanText` returns the empty string on each falsy argument —
`null`, `undefined` and `""` — and, being a total function, never raises. -/
theorem cleanText_falsy_empty :
    cleanTextArg .null = "" ∧ cleanTextArg .undefined = "" ∧ cleanTextArg (.str "") = "" :=
  ⟨rfl, rfl, rfl⟩

end OpenOwl
